import Mathlib

/-!
# Verification of the daily-quiz server's sampler and HTTP facade

Shallow embedding of `src/server.js`: the JS question objects become records
of optional JS values, JS arrays become Lean lists, the process heap (needed
to reason about the in-place Fisher–Yates shuffle and the pool copy) becomes
an explicit store of lists, and the two HTTP handlers and the refresh
operation become pure functions of the pool and, for refresh, of the
enumerated outcome of the external call.
-/

namespace DailyQuiz

/-- A JavaScript field value, as far as the server inspects one: the code only
ever distinguishes numbers (`typeof q.id === 'number'`) from everything else,
so strings, arrays of strings (the `choices` shape) and booleans cover the
remaining payloads opaquely. -/
inductive JsValue where
  | num (n : Int)
  | str (s : String)
  | strList (l : List String)
  | boolean (b : Bool)
deriving DecidableEq, Repr

/-- A question object as the server handles it. Every field is optional:
the code never assumes a field is present, and the answer-key handler
explicitly guards on `typeof`. `none` models an absent property. -/
structure Question where
  id : Option JsValue := none
  text : Option JsValue := none
  choices : Option JsValue := none
  correctAnswerIndex : Option JsValue := none
  explanation : Option JsValue := none
deriving DecidableEq, Repr

/-- The UTC components of a JavaScript `Date` value. `utcMonth` is 0-based,
exactly like `Date.prototype.getUTCMonth`. The time-of-day fields are carried
so that independence from them can be stated. -/
structure JsDate where
  utcFullYear : Nat
  utcMonth : Nat
  utcDate : Nat
  utcHours : Nat := 0
  utcMinutes : Nat := 0
  utcSeconds : Nat := 0
  utcMilliseconds : Nat := 0
deriving DecidableEq, Repr

/-- `String.prototype.padStart(targetLength, padChar)` for a single pad
character: left-pad to `targetLength` (a no-op when already long enough). -/
def jsPadStart (s : String) (targetLength : Nat) (padChar : Char) : String :=
  String.mk (List.replicate (targetLength - s.length) padChar) ++ s

/-- `getDailySeed` (server.js:41–47): render the current UTC date as
`YYYYMMDD`, with `getUTCMonth() + 1` and `getUTCDate()` left-padded with
zeroes to width 2. -/
def getDailySeed (today : JsDate) : String :=
  let year := today.utcFullYear
  let month := jsPadStart (toString (today.utcMonth + 1)) 2 '0'
  let day := jsPadStart (toString today.utcDate) 2 '0'
  toString year ++ month ++ day

/-- `2^53`: `seedrandom`'s generator returns doubles of the form
`u / 2^53` with `u < 2^53`, so `Math.floor(rng() * (i + 1))` is
`u * (i + 1) / 2^53` in exact integer arithmetic. -/
def TWO53 : Nat := 9007199254740992

/-- Deterministic hash of the seed string, the seed-to-state encoding of the
modelled generator. -/
def strHash (s : String) : Nat :=
  s.data.foldl (fun h c => (h * 131 + c.toNat + 1) % TWO53) 5381

/-- Model of the external `seedrandom` library (a dependency, not part of
this repository): a pseudo-random stream that is a pure function of the seed
string, whose `k`-th call yields a numerator `u < 2^53`, the double returned
being `u / 2^53 ∈ [0,1)`. The concrete values are library-internal; every
theorem below relies only on the stream being deterministic in the seed and
bounded by `2^53`. -/
def seedrandom (seed : String) (k : Nat) : Nat :=
  (strHash seed * 6364136223846793005 + k * 1442695040888963407 + 1013904223) % TWO53

/-- The JS destructuring swap `[array[i], array[j]] = [array[j], array[i]]`
on an immutable list: when both indices are in range, write each element at
the other's position (out-of-range indices cannot occur in the shuffle loop;
the fallback returns the list unchanged). -/
def jsSwap (l : List α) (i j : Nat) : List α :=
  match l.get? i, l.get? j with
  | some a, some b => (l.set i b).set j a
  | _, _ => l

/-- The Fisher–Yates loop of `shuffleArray` (server.js:52–55) on list values:
`i` runs from `array.length - 1` down to `1`, each step draws the `k`-th
stream value `u` and swaps position `i` with `j = ⌊(u / 2^53)·(i+1)⌋`. -/
def fyLoop (rng : Nat → Nat) : List α → Nat → Nat → List α
  | l, 0, _ => l
  | l, i + 1, k => fyLoop rng (jsSwap l (i + 1) (rng k * (i + 2) / TWO53)) i (k + 1)

/-- `shuffleArray` (server.js:50–57) as a function on list values: seed the
generator from the seed string and run the Fisher–Yates loop. The in-place
behaviour of the JS original is modelled separately on the store
(`shuffleArrayS`). -/
def shuffleArray (array : List α) (seed : String) : List α :=
  fyLoop (seedrandom seed) array (array.length - 1) 0

/-- `assignQuizIds` (server.js:60–66), recursion on the list with the running
index: `quizData.map((q, index) => ({...q, id: index + 1}))`. The spread
keeps every other field and overwrites `id`. -/
def assignQuizIdsFrom (index : Nat) : List Question → List Question
  | [] => []
  | q :: rest =>
      { q with id := some (JsValue.num ((index : Int) + 1)) } :: assignQuizIdsFrom (index + 1) rest

/-- `assignQuizIds` entry point: indices start at 0, ids at 1. -/
def assignQuizIds (quizData : List Question) : List Question :=
  assignQuizIdsFrom 0 quizData

/-- `getKRandomQuestions` (server.js:69–75) as a function of the pool value
and the date: copy the pool, compute `count = min(K, |copy|)`, shuffle the
copy with the daily seed, take the first `count` elements. -/
def getKRandomQuestions (K : Nat) (masterData : List Question) (date : JsDate) : List Question :=
  let seed := getDailySeed date
  let dataCopy := masterData
  let count := min K dataCopy.length
  let shuffledCopy := shuffleArray dataCopy seed
  shuffledCopy.take count

/-- `sanitizeQuizData` (server.js:78–84): per element, the rest-spread
`const { correctAnswerIndex, ...safeQuestion } = q` removes exactly the
`correctAnswerIndex` property and keeps every other field. -/
def sanitizeQuizData (questions : List Question) : List Question :=
  questions.map (fun q => { q with correctAnswerIndex := none })

/-- JS object property assignment `acc[k] = v` on an association list:
overwrite the entry for `k` when present, append otherwise. -/
def jsObjSet (m : List (Int × Int)) (k v : Int) : List (Int × Int) :=
  if m.any (fun p => p.1 == k) then
    m.map (fun p => if p.1 == k then (k, v) else p)
  else
    m ++ [(k, v)]

/-- One step of the `reduce` in the answer-key handler (server.js:189–195):
if both `q.id` and `q.correctAnswerIndex` are numbers, set `acc[q.id]`,
otherwise leave the accumulator alone. -/
def answerKeyStep (acc : List (Int × Int)) (q : Question) : List (Int × Int) :=
  match q.id, q.correctAnswerIndex with
  | some (JsValue.num i), some (JsValue.num v) => jsObjSet acc i v
  | _, _ => acc

/-- The answer-key mapping built by the `/api/answer-key` handler from the
day's selection. -/
def answerKey (questions : List Question) : List (Int × Int) :=
  questions.foldl answerKeyStep []

/-- Property lookup on the built mapping (what `answerKey[id]` reads). -/
def lookupKey (m : List (Int × Int)) (k : Int) : Option Int :=
  (m.find? (fun p => p.1 == k)).map (fun p => p.2)

/-! ## Heap model

JS arrays are mutable objects on a heap. A `Store` is the heap restricted to
the arrays of questions the sampler touches: a list of cells, a reference
being an index. Reads of a dangling reference yield `[]` (they never occur
with the in-range hypotheses used below). -/

/-- The heap of question arrays. -/
abbrev Store := List (List Question)

/-- Read the array held by reference `r`. -/
def Store.read (st : Store) (r : Nat) : List Question :=
  List.getD st r []

/-- Length of the store (number of allocated cells). -/
def Store.size (st : Store) : Nat :=
  List.length st

/-- Overwrite the array held by reference `r`. -/
def Store.write (st : Store) (r : Nat) (l : List Question) : Store :=
  List.set st r l

/-- Allocate a fresh cell holding `l`; the new reference is `st.size`. -/
def Store.alloc (st : Store) (l : List Question) : Store :=
  st ++ [l]

/-- The Fisher–Yates loop of `shuffleArray` acting on the store: each
iteration reads the array at `r`, swaps two of its positions and writes it
back to the same cell — the in-place `[array[i], array[j]] = ...` of
server.js:54. -/
def shuffleLoopS (rng : Nat → Nat) (st : Store) (r : Nat) : Nat → Nat → Store
  | 0, _ => st
  | i + 1, k =>
      shuffleLoopS rng (st.write r (jsSwap (st.read r) (i + 1) (rng k * (i + 2) / TWO53))) r i (k + 1)

/-- `shuffleArray(array, seed)` at the heap level: it receives a reference,
mutates that cell through the swap loop, and returns the same reference
(`return array`, server.js:56). -/
def shuffleArrayS (st : Store) (r : Nat) (seed : String) : Store × Nat :=
  (shuffleLoopS (seedrandom seed) st r ((st.read r).length - 1) 0, r)

/-- `getKRandomQuestions` at the heap level (server.js:69–75): allocate the
copy `[...masterData]` as a fresh array, shuffle that fresh cell, and slice
the first `count` elements of the array the returned reference points to. -/
def getKRandomQuestionsS (st : Store) (masterRef : Nat) (K : Nat) (date : JsDate) :
    Store × List Question :=
  let seed := getDailySeed date
  let masterData := st.read masterRef
  let st' := st.alloc masterData
  let copyRef := st.size
  let count := min K masterData.length
  let res := shuffleArrayS st' copyRef seed
  (res.1, ((Store.read res.1 res.2).take count))

/-! ## HTTP facade and refresh -/

/-- A response body as the two handlers build one: a sanitized question
list, an answer-key object, or a JSON error object with string fields. -/
inductive ResBody where
  | questionList (qs : List Question)
  | answerMap (m : List (Int × Int))
  | errorFields (fields : List (String × String))
deriving DecidableEq, Repr

/-- The 503 message of `/api/quiz` (server.js:153). -/
def quizUnavailableMessage : String :=
  "Quiz data is currently loading or unavailable. Please wait for initial data fetch."

/-- The `GET /api/quiz` handler (server.js:149–171) as a function of the pool
snapshot and the date: status code and body. The `catch` branch is
unreachable in the embedding because every operation is total. -/
def apiQuiz (master : List Question) (date : JsDate) : Nat × ResBody :=
  if master.length = 0 then
    (503, ResBody.errorFields [("errorCode", "DATA_UNAVAILABLE"), ("message", quizUnavailableMessage)])
  else
    (200, ResBody.questionList (sanitizeQuizData (getKRandomQuestions 5 master date)))

/-- The `GET /api/answer-key` handler (server.js:177–203) as a function of
the pool snapshot and the date. -/
def apiAnswerKey (master : List Question) (date : JsDate) : Nat × ResBody :=
  if master.length = 0 then
    (503, ResBody.errorFields [("error", "Data unavailable")])
  else
    (200, ResBody.answerMap (answerKey (getKRandomQuestions 5 master date)))

/-- What `JSON.parse` of the cleaned response text produced, when it
succeeded: an array of (arbitrary) objects, or some non-array value. -/
inductive ParsedValue where
  | arr (items : List Question)
  | nonArray
deriving DecidableEq, Repr

/-- The outcome of one refresh attempt's external interactions, enumerated
from the branch structure of `fetchNewQuizData` (server.js:101–125):
the `axios.post` rejected; the response carried no candidate; `JSON.parse`
threw; or parsing succeeded with some value. -/
inductive FetchOutcome where
  | netError
  | noCandidates
  | badParse
  | parsed (v : ParsedValue)
deriving DecidableEq, Repr

/-- The `try` block of `fetchNewQuizData`: every failing branch `throw`s
(modelled as `Except.error` with the thrown message's role), and only a
parsed non-empty array reaches the assignment to `MASTER_QUIZ_DATA`. -/
def fetchTryBlock (outcome : FetchOutcome) : Except String (List Question) :=
  match outcome with
  | FetchOutcome.netError => Except.error "axios error"
  | FetchOutcome.noCandidates => Except.error "no valid candidate in Gemini API response"
  | FetchOutcome.badParse => Except.error "JSON.parse threw"
  | FetchOutcome.parsed ParsedValue.nonArray => Except.error "no valid quiz array"
  | FetchOutcome.parsed (ParsedValue.arr items) =>
      if items.length > 0 then Except.ok (assignQuizIds items)
      else Except.error "no valid quiz array"

/-- `fetchNewQuizData` (server.js:91–136) as a transition on the pool: the
`catch` swallows every thrown error and leaves `MASTER_QUIZ_DATA` as it was;
a successful parse of a non-empty array replaces it wholesale with the
id-assigned data. Totality of this function is the "no exception escapes"
guarantee. -/
def fetchNewQuizData (master : List Question) (outcome : FetchOutcome) : List Question :=
  match fetchTryBlock outcome with
  | Except.ok newData => newData
  | Except.error _ => master

/-- `true` exactly on the outcomes the code treats as failures (every path
that reaches the `catch` block). -/
def isFetchFailure (outcome : FetchOutcome) : Bool :=
  match outcome with
  | FetchOutcome.parsed (ParsedValue.arr items) => items.isEmpty
  | _ => true

/-! ## Store lemmas -/

lemma Store.read_write_self (st : Store) (r : Nat) (l : List Question) (h : r < st.size) :
    (st.write r l).read r = l := by
  simp [Store.read, Store.write, List.getElem?_set_self h]

lemma Store.read_write_ne (st : Store) (r r' : Nat) (l : List Question) (h : r' ≠ r) :
    (st.write r l).read r' = st.read r' := by
  simp [Store.read, Store.write, List.getElem?_set_ne (Ne.symm h)]

lemma Store.size_write (st : Store) (r : Nat) (l : List Question) :
    (st.write r l).size = st.size := by
  simp [Store.size, Store.write]

lemma Store.read_alloc_fresh (st : Store) (l : List Question) :
    (st.alloc l).read st.size = l := by
  simp [Store.read, Store.alloc, Store.size, List.getElem?_append_right (Nat.le_refl _)]

lemma Store.read_alloc_old (st : Store) (l : List Question) (r : Nat) (h : r < st.size) :
    (st.alloc l).read r = st.read r := by
  simp [Store.read, Store.alloc, List.getElem?_append_left h]

lemma Store.size_alloc (st : Store) (l : List Question) :
    (st.alloc l).size = st.size + 1 := by
  simp [Store.size, Store.alloc]

lemma Store.read_lt (st : Store) (r : Nat) (h : r < st.size) :
    st.read r = st.get ⟨r, h⟩ := by
  have hg : st[r]? = some st[r] := List.getElem?_eq_getElem h
  simp [Store.read, hg]

lemma Store.write_read_self (st : Store) (r : Nat) (h : r < st.size) :
    st.write r (st.read r) = st := by
  apply List.ext_getElem?
  intro n
  by_cases hn : n = r
  · subst hn
    have hg : st[n]? = some st[n] := List.getElem?_eq_getElem h
    simp [Store.write, Store.read, List.getElem?_set_self h, hg]
  · simp [Store.write, List.getElem?_set_ne (Ne.symm hn)]

/-! ## Permutation facts about the swap and the Fisher–Yates loop -/

lemma cons_get_set_perm (t : List α) : ∀ (m : Nat) (h : m < t.length) (x : α),
    List.Perm (t.get ⟨m, h⟩ :: t.set m x) (x :: t) := by
  induction t with
  | nil => intro m h; exact absurd h (by simp)
  | cons a s ih =>
    intro m h x
    cases m with
    | zero => simpa using List.Perm.swap x a s
    | succ m' =>
      have h' : m' < s.length := by simpa using h
      have step1 : List.Perm (s.get ⟨m', h'⟩ :: a :: s.set m' x)
          (a :: s.get ⟨m', h'⟩ :: s.set m' x) :=
        List.Perm.swap a (s.get ⟨m', h'⟩) _
      have step2 : List.Perm (a :: s.get ⟨m', h'⟩ :: s.set m' x) (a :: (x :: s)) :=
        (ih m' h' x).cons a
      have step3 : List.Perm (a :: x :: s) (x :: a :: s) := List.Perm.swap x a s
      simpa using (step1.trans step2).trans step3

lemma set_set_get_perm (l : List α) : ∀ (i j : Nat) (hi : i < l.length) (hj : j < l.length),
    List.Perm ((l.set i (l.get ⟨j, hj⟩)).set j (l.get ⟨i, hi⟩)) l := by
  induction l with
  | nil => intro i j hi _; exact absurd hi (by simp)
  | cons a t ih =>
    intro i j hi hj
    cases i with
    | zero =>
      cases j with
      | zero => simp
      | succ n =>
        have hn : n < t.length := by simpa using hj
        simpa using cons_get_set_perm t n hn a
    | succ m =>
      cases j with
      | zero =>
        have hm : m < t.length := by simpa using hi
        simpa using cons_get_set_perm t m hm a
      | succ n =>
        have hm : m < t.length := by simpa using hi
        have hn : n < t.length := by simpa using hj
        simpa using (ih m n hm hn).cons a

lemma jsSwap_perm (l : List α) (i j : Nat) : List.Perm (jsSwap l i j) l := by
  unfold jsSwap
  split
  · next a b h₁ h₂ =>
    obtain ⟨hi, ha⟩ := List.get?_eq_some.mp h₁
    obtain ⟨hj, hb⟩ := List.get?_eq_some.mp h₂
    subst ha
    subst hb
    exact set_set_get_perm l i j hi hj
  · exact List.Perm.refl l

lemma jsSwap_length (l : List α) (i j : Nat) : (jsSwap l i j).length = l.length :=
  (jsSwap_perm l i j).length_eq

lemma fyLoop_perm (rng : Nat → Nat) : ∀ (i k : Nat) (l : List α),
    List.Perm (fyLoop rng l i k) l := by
  intro i
  induction i with
  | zero => intro k l; simp [fyLoop]
  | succ i ih =>
    intro k l
    have hstep : fyLoop rng l (i + 1) k
        = fyLoop rng (jsSwap l (i + 1) (rng k * (i + 2) / TWO53)) i (k + 1) := rfl
    rw [hstep]
    exact (ih (k + 1) _).trans (jsSwap_perm l (i + 1) _)

lemma shuffleArray_perm (array : List α) (seed : String) :
    List.Perm (shuffleArray array seed) array :=
  fyLoop_perm (seedrandom seed) (array.length - 1) 0 array

lemma shuffleArray_length (array : List α) (seed : String) :
    (shuffleArray array seed).length = array.length :=
  (shuffleArray_perm array seed).length_eq

/-! ## The heap-level shuffle refines the list-level one -/

lemma shuffleLoopS_eq (rng : Nat → Nat) : ∀ (i k : Nat) (st : Store) (r : Nat),
    r < st.size → shuffleLoopS rng st r i k = st.write r (fyLoop rng (st.read r) i k) := by
  intro i
  induction i with
  | zero =>
    intro k st r h
    simp [shuffleLoopS, fyLoop, Store.write_read_self st r h]
  | succ i ih =>
    intro k st r h
    have hsize : r < (st.write r (jsSwap (st.read r) (i + 1) (rng k * (i + 2) / TWO53))).size := by
      rw [Store.size_write]; exact h
    have hstep : shuffleLoopS rng st r (i + 1) k
        = shuffleLoopS rng
            (st.write r (jsSwap (st.read r) (i + 1) (rng k * (i + 2) / TWO53))) r i (k + 1) := rfl
    rw [hstep, ih (k + 1) _ r hsize, Store.read_write_self st r _ h]
    simp [Store.write, List.set_set]
    rfl

lemma shuffleArrayS_spec (st : Store) (r : Nat) (seed : String) (h : r < st.size) :
    shuffleArrayS st r seed = (st.write r (shuffleArray (st.read r) seed), r) := by
  unfold shuffleArrayS shuffleArray
  rw [shuffleLoopS_eq (seedrandom seed) _ 0 st r h]

lemma getKRandomQuestionsS_val (st : Store) (r K : Nat) (d : JsDate) :
    (getKRandomQuestionsS st r K d).2 = getKRandomQuestions K (st.read r) d := by
  have halloc : st.size < (st.alloc (st.read r)).size := by
    rw [Store.size_alloc]; omega
  dsimp only [getKRandomQuestionsS, getKRandomQuestions]
  rw [shuffleArrayS_spec _ _ _ halloc]
  simp [Store.read_write_self _ _ _ halloc, Store.read_alloc_fresh]

lemma getKRandomQuestionsS_frame (st : Store) (r K r' : Nat) (d : JsDate) (h : r' < st.size) :
    ((getKRandomQuestionsS st r K d).1).read r' = st.read r' := by
  have halloc : st.size < (st.alloc (st.read r)).size := by
    rw [Store.size_alloc]; omega
  dsimp only [getKRandomQuestionsS]
  rw [shuffleArrayS_spec _ _ _ halloc]
  have hne : r' ≠ st.size := Nat.ne_of_lt h
  rw [Store.read_write_ne _ _ _ _ hne, Store.read_alloc_old _ _ _ h]

/-! ## Basic facts about the selection -/

lemma getKRandomQuestions_nil (K : Nat) (d : JsDate) : getKRandomQuestions K [] d = [] := by
  simp [getKRandomQuestions, shuffleArray, fyLoop]

lemma getKRandomQuestions_subperm (K : Nat) (P : List Question) (d : JsDate) :
    List.Subperm (getKRandomQuestions K P d) P := by
  unfold getKRandomQuestions
  exact ((List.take_sublist _ _).subperm).trans (shuffleArray_perm P _).subperm

lemma getKRandomQuestions_length (K : Nat) (P : List Question) (d : JsDate) :
    (getKRandomQuestions K P d).length = min K P.length := by
  unfold getKRandomQuestions
  simp only [List.length_take, shuffleArray_length]
  omega

/-! ## Concrete fixtures used by the witnesses -/

/-- A concrete date (2024-01-01 UTC, midnight). -/
def sampleDate : JsDate :=
  { utcFullYear := 2024, utcMonth := 0, utcDate := 1 }

/-- The same calendar date at a different time of day. -/
def sampleDateEvening : JsDate :=
  { utcFullYear := 2024, utcMonth := 0, utcDate := 1,
    utcHours := 23, utcMinutes := 59, utcSeconds := 59, utcMilliseconds := 999 }

/-- A concrete well-formed three-question pool. -/
def poolA : List Question :=
  [ { id := some (JsValue.num 1), text := some (JsValue.str "q1"),
      choices := some (JsValue.strList ["a", "b", "c"]),
      correctAnswerIndex := some (JsValue.num 0),
      explanation := some (JsValue.str "e1") },
    { id := some (JsValue.num 2), text := some (JsValue.str "q2"),
      choices := some (JsValue.strList ["d", "e", "f"]),
      correctAnswerIndex := some (JsValue.num 1),
      explanation := some (JsValue.str "e2") },
    { id := some (JsValue.num 3), text := some (JsValue.str "q3"),
      choices := some (JsValue.strList ["g", "h", "i"]),
      correctAnswerIndex := some (JsValue.num 2),
      explanation := some (JsValue.str "e3") } ]

/-! ## Claims -/

/-- C3: `sanitizeQuizData` returns a list of the same length and order in
which no element carries a `correctAnswerIndex` field, while the `id`,
`text`, `choices` and `explanation` fields of every element are preserved
unchanged. -/
theorem sanitizeQuizData_redacts (qs : List Question) :
    (sanitizeQuizData qs).length = qs.length
    ∧ (sanitizeQuizData qs).map Question.correctAnswerIndex = List.replicate qs.length none
    ∧ (sanitizeQuizData qs).map Question.id = qs.map Question.id
    ∧ (sanitizeQuizData qs).map Question.text = qs.map Question.text
    ∧ (sanitizeQuizData qs).map Question.choices = qs.map Question.choices
    ∧ (sanitizeQuizData qs).map Question.explanation = qs.map Question.explanation := by
  have hcai : ∀ l : List Question,
      (sanitizeQuizData l).map Question.correctAnswerIndex = List.replicate l.length none := by
    intro l
    induction l with
    | nil => rfl
    | cons q rest ih => simpa [sanitizeQuizData, List.replicate_succ] using ih
  refine ⟨by simp [sanitizeQuizData], hcai qs, ?_, ?_, ?_, ?_⟩ <;>
    · induction qs with
      | nil => rfl
      | cons q rest ih => simp [sanitizeQuizData]

/-- C4: the selection is an ordered subsequence of exactly `min K |P|`
elements of the pool — every element drawn from `P`, no element returned
more often than it occurs in `P`, and exactly `|P|` elements when the pool
is smaller than `K`. -/
theorem getKRandomQuestions_shape (K : Nat) (P : List Question) (d : JsDate) :
    (getKRandomQuestions K P d).length = min K P.length
    ∧ List.Subperm (getKRandomQuestions K P d) P
    ∧ (∀ q, q ∈ getKRandomQuestions K P d → q ∈ P)
    ∧ (∀ q, (getKRandomQuestions K P d).count q ≤ P.count q)
    ∧ (P.length < K → (getKRandomQuestions K P d).length = P.length) := by
  have hsub := getKRandomQuestions_subperm K P d
  have hlen := getKRandomQuestions_length K P d
  exact ⟨hlen, hsub, fun q hq => hsub.subset hq, fun q => hsub.count_le q,
    fun h => by rw [hlen]; omega⟩

/-- Witness for C4 at a concrete pool of 3 questions with `K = 5`. -/
theorem getKRandomQuestions_shape_witness :
    (getKRandomQuestions 5 poolA sampleDate).length = poolA.length :=
  (getKRandomQuestions_shape 5 poolA sampleDate).2.2.2.2 (by decide)

/-- C5: running the daily selection leaves every previously allocated pool
cell of the heap — in particular the master pool at `r` — exactly as it was:
the shuffle operates on the freshly allocated duplicate, whose sliced value
is the pure selection of the pool contents. -/
theorem getKRandomQuestionsS_preserves_pool (st : Store) (r K : Nat) (d : JsDate)
    (h : r < st.size) :
    (∀ r', r' < st.size → ((getKRandomQuestionsS st r K d).1).read r' = st.read r')
    ∧ ((getKRandomQuestionsS st r K d).1).read r = st.read r
    ∧ (getKRandomQuestionsS st r K d).2 = getKRandomQuestions K (st.read r) d := by
  refine ⟨fun r' h' => getKRandomQuestionsS_frame st r K r' d h', ?_, ?_⟩
  · exact getKRandomQuestionsS_frame st r K r d h
  · exact getKRandomQuestionsS_val st r K d

/-- Witness for C5: the master cell of a one-cell heap is untouched. -/
theorem getKRandomQuestionsS_preserves_pool_witness :
    Store.read (getKRandomQuestionsS [poolA] 0 5 sampleDate).1 0 = Store.read [poolA] 0 :=
  (getKRandomQuestionsS_preserves_pool [poolA] 0 5 sampleDate (by decide)).2.1

/-- C1: determinism of the daily selection — its value depends only on the
pool contents and order, the date and `K`: two heaps holding the same pool
sequence at possibly different references (e.g. before and after a process
restart) yield identical selections, element for element and in order. -/
theorem select_deterministic (st₁ st₂ : Store) (r₁ r₂ K : Nat) (d : JsDate)
    (h : st₁.read r₁ = st₂.read r₂) :
    (getKRandomQuestionsS st₁ r₁ K d).2 = (getKRandomQuestionsS st₂ r₂ K d).2 := by
  rw [getKRandomQuestionsS_val, getKRandomQuestionsS_val, h]

/-- Witness for C1: two distinct heaps holding `poolA` in different cells. -/
theorem select_deterministic_witness :
    (getKRandomQuestionsS [poolA] 0 5 sampleDate).2
      = (getKRandomQuestionsS [[], poolA] 1 5 sampleDate).2 :=
  select_deterministic [poolA] [[], poolA] 0 1 5 sampleDate (by decide)

/-- C10: `shuffleArray` is in-place: given a reference it returns that very
reference, the cell it points to now holds a permutation of its previous
contents (the value of the pure shuffle), and no other cell of the heap is
touched — purity of the pool is entirely the caller's copy, not the
shuffle's. -/
theorem shuffleArrayS_in_place (st : Store) (r : Nat) (seed : String) (h : r < st.size) :
    (shuffleArrayS st r seed).2 = r
    ∧ ((shuffleArrayS st r seed).1).size = st.size
    ∧ (∀ r', r' ≠ r → ((shuffleArrayS st r seed).1).read r' = st.read r')
    ∧ List.Perm (((shuffleArrayS st r seed).1).read r) (st.read r)
    ∧ ((shuffleArrayS st r seed).1).read r = shuffleArray (st.read r) seed := by
  rw [shuffleArrayS_spec st r seed h]
  refine ⟨rfl, Store.size_write st r _, fun r' hr' => Store.read_write_ne st r r' _ hr', ?_, ?_⟩
  · rw [Store.read_write_self st r _ h]
    exact shuffleArray_perm _ _
  · exact Store.read_write_self st r _ h

/-- Witness for C10 on a concrete heap and seed. -/
theorem shuffleArrayS_in_place_witness :
    (shuffleArrayS [poolA] 0 "20240101").2 = 0 :=
  (shuffleArrayS_in_place [poolA] 0 "20240101" (by decide)).1

/-- C6: on an empty pool the selection is empty and both endpoints answer
503 with their respective bodies; on a non-empty pool neither endpoint
answers 503. -/
theorem endpoints_empty_pool (master : List Question) (d : JsDate) :
    (master.length = 0 →
        (∀ K, getKRandomQuestions K master d = [])
        ∧ apiQuiz master d
            = (503, ResBody.errorFields
                [("errorCode", "DATA_UNAVAILABLE"), ("message", quizUnavailableMessage)])
        ∧ apiAnswerKey master d = (503, ResBody.errorFields [("error", "Data unavailable")]))
    ∧ (master.length ≠ 0 → (apiQuiz master d).1 ≠ 503 ∧ (apiAnswerKey master d).1 ≠ 503) := by
  constructor
  · intro h
    have hm : master = [] := List.length_eq_zero.mp h
    subst hm
    exact ⟨fun K => getKRandomQuestions_nil K d, by simp [apiQuiz], by simp [apiAnswerKey]⟩
  · intro h
    exact ⟨by simp [apiQuiz, h], by simp [apiAnswerKey, h]⟩

/-- Witness for C6: the empty pool and a non-empty pool, both concrete. -/
theorem endpoints_empty_pool_witness :
    apiQuiz [] sampleDate
        = (503, ResBody.errorFields
            [("errorCode", "DATA_UNAVAILABLE"), ("message", quizUnavailableMessage)])
    ∧ (apiQuiz poolA sampleDate).1 ≠ 503 :=
  ⟨((endpoints_empty_pool [] sampleDate).1 (by decide)).2.1,
    ((endpoints_empty_pool poolA sampleDate).2 (by decide)).1⟩

/-! ## Identifier assignment (C9) -/

lemma assignQuizIdsFrom_map_id (l : List Question) : ∀ s : Nat,
    (assignQuizIdsFrom s l).map Question.id
      = (List.range l.length).map (fun n : Nat => some (JsValue.num ((s : Int) + n + 1))) := by
  induction l with
  | nil => intro s; rfl
  | cons q rest ih =>
    intro s
    rw [List.length_cons, List.range_succ_eq_map]
    simp only [assignQuizIdsFrom, List.map_cons, List.map_map]
    rw [ih (s + 1)]
    congr 1
    apply List.map_congr_left
    intro a _
    simp only [Function.comp_apply, Option.some.injEq, JsValue.num.injEq]
    omega

lemma assignQuizIds_map_id (l : List Question) :
    (assignQuizIds l).map Question.id
      = (List.range l.length).map (fun n : Nat => some (JsValue.num ((n : Int) + 1))) := by
  have h := assignQuizIdsFrom_map_id l 0
  unfold assignQuizIds
  rw [h]
  apply List.map_congr_left
  intro n _
  simp

lemma assignQuizIds_ids_nodup (l : List Question) :
    ((assignQuizIds l).map Question.id).Nodup := by
  rw [assignQuizIds_map_id]
  refine List.Nodup.map ?_ (List.nodup_range _)
  intro a b hab
  simp only [Option.some.injEq, JsValue.num.injEq] at hab
  omega

lemma assignQuizIds_pairwise (l : List Question) :
    (assignQuizIds l).Pairwise (fun a b => a.id ≠ b.id) := by
  have h := assignQuizIds_ids_nodup l
  rw [List.Nodup, List.pairwise_map] at h
  exact h

/-- C9: a successful refresh replaces the pool with `assignQuizIds` of the
arriving data, whose identifiers are exactly `1..n` in arrival order —
hence pairwise distinct — whatever ids the records carried before. -/
theorem fetch_success_assigns_ids (master items : List Question) (h : 0 < items.length) :
    fetchNewQuizData master (FetchOutcome.parsed (ParsedValue.arr items)) = assignQuizIds items
    ∧ (assignQuizIds items).map Question.id
        = (List.range items.length).map (fun n : Nat => some (JsValue.num ((n : Int) + 1)))
    ∧ (assignQuizIds items).Pairwise (fun a b => a.id ≠ b.id) := by
  refine ⟨?_, assignQuizIds_map_id items, assignQuizIds_pairwise items⟩
  simp [fetchNewQuizData, fetchTryBlock, h]

/-- Witness for C9: two records arriving with stale ids 7 and 7 get ids 1, 2. -/
theorem fetch_success_assigns_ids_witness :
    fetchNewQuizData poolA
        (FetchOutcome.parsed (ParsedValue.arr
          [{ id := some (JsValue.num 7) }, { id := some (JsValue.num 7) }]))
      = assignQuizIds [{ id := some (JsValue.num 7) }, { id := some (JsValue.num 7) }] :=
  (fetch_success_assigns_ids poolA
    [{ id := some (JsValue.num 7) }, { id := some (JsValue.num 7) }] (by decide)).1

/-- C7: every failing refresh outcome — network error, missing candidate,
unparsable content, non-array or empty-array result — leaves the pool
exactly unchanged (the `catch` absorbs the thrown error; the embedding is
total, so nothing escapes); the pool is replaced only by a parsed non-empty
array. -/
theorem fetch_failure_keeps_pool (master : List Question) (o : FetchOutcome) :
    (isFetchFailure o = true → fetchNewQuizData master o = master)
    ∧ (isFetchFailure o = false →
        ∃ items, o = FetchOutcome.parsed (ParsedValue.arr items) ∧ 0 < items.length
          ∧ fetchNewQuizData master o = assignQuizIds items) := by
  constructor
  · intro h
    cases o with
    | netError => rfl
    | noCandidates => rfl
    | badParse => rfl
    | parsed v =>
      cases v with
      | nonArray => rfl
      | arr items =>
        cases items with
        | nil => rfl
        | cons a t => simp [isFetchFailure] at h
  · intro h
    cases o with
    | netError => simp [isFetchFailure] at h
    | noCandidates => simp [isFetchFailure] at h
    | badParse => simp [isFetchFailure] at h
    | parsed v =>
      cases v with
      | nonArray => simp [isFetchFailure] at h
      | arr items =>
        cases items with
        | nil => simp [isFetchFailure] at h
        | cons a t =>
          refine ⟨a :: t, rfl, by simp, ?_⟩
          simp [fetchNewQuizData, fetchTryBlock]

/-- Witness for C7: a concrete network failure leaves `poolA` as it was. -/
theorem fetch_failure_keeps_pool_witness :
    fetchNewQuizData poolA FetchOutcome.netError = poolA :=
  (fetch_failure_keeps_pool poolA FetchOutcome.netError).1 (by decide)

/-! ## The daily seed (C8) -/

/-- Written from the spec's words (§4.1), for the refinement statement only:
"produce a textual key from the current UTC date as `YYYYMMDD` (zero-padded
month/day)" — a two-digit zero-padded rendering. -/
def pad2Spec (n : Nat) : String :=
  if n < 10 then "0" ++ toString n else toString n

/-- Written from the spec's words (§4.1), for the refinement statement only:
the year's digits followed by the zero-padded 1-based month and the
zero-padded day of the month. -/
def seedSpecYYYYMMDD (year month1 day : Nat) : String :=
  toString year ++ pad2Spec month1 ++ pad2Spec day

/-- C8: the daily seed is the UTC date rendered as `YYYYMMDD` with
zero-padded month and day, and it depends only on the UTC calendar-date
fields — any two instants of the same UTC day (whatever their time-of-day
components) produce equal seeds. The range hypotheses are those of
JavaScript's `getUTCMonth() ∈ [0,11]` and `getUTCDate() ∈ [1,31]`. -/
theorem getDailySeed_spec (d : JsDate) (hm : d.utcMonth < 12) (hd : d.utcDate ≤ 31) :
    getDailySeed d = seedSpecYYYYMMDD d.utcFullYear (d.utcMonth + 1) d.utcDate
    ∧ ∀ d' : JsDate, d'.utcFullYear = d.utcFullYear → d'.utcMonth = d.utcMonth →
        d'.utcDate = d.utcDate → getDailySeed d' = getDailySeed d := by
  constructor
  · have hpad : ∀ n, n < 100 → jsPadStart (toString n) 2 '0' = pad2Spec n := by decide
    unfold getDailySeed seedSpecYYYYMMDD
    rw [hpad (d.utcMonth + 1) (by omega), hpad d.utcDate (by omega)]
  · intro d' h1 h2 h3
    unfold getDailySeed
    rw [h1, h2, h3]

/-- Witness for C8: midnight and 23:59:59.999 of 2024-01-01 UTC agree. -/
theorem getDailySeed_spec_witness :
    getDailySeed sampleDate = seedSpecYYYYMMDD 2024 1 1
    ∧ getDailySeed sampleDateEvening = getDailySeed sampleDate :=
  ⟨(getDailySeed_spec sampleDate (by decide) (by decide)).1,
    (getDailySeed_spec sampleDate (by decide) (by decide)).2 sampleDateEvening rfl rfl rfl⟩

/-! ## The answer-key mapping (C2) -/

/-- The `(id, correctAnswerIndex)` pair a question contributes to the
answer key, when both fields pass the handler's `typeof` guards. -/
def answerEntry (q : Question) : Option (Int × Int) :=
  match q.id, q.correctAnswerIndex with
  | some (JsValue.num i), some (JsValue.num v) => some (i, v)
  | _, _ => none

/-- Both guarded fields of `q` are numbers. -/
def wellTyped (q : Question) : Bool :=
  (answerEntry q).isSome

/-- A pool as the server in fact builds one: every entry passes the
`typeof` guards and identifiers are pairwise distinct. -/
def wellFormedPool (P : List Question) : Prop :=
  (∀ q ∈ P, wellTyped q = true) ∧ P.Pairwise (fun a b => a.id ≠ b.id)

instance (P : List Question) : Decidable (wellFormedPool P) := by
  unfold wellFormedPool
  infer_instance

lemma answerEntry_eq_some (q : Question) (i v : Int) :
    answerEntry q = some (i, v) ↔
      q.id = some (JsValue.num i) ∧ q.correctAnswerIndex = some (JsValue.num v) := by
  unfold answerEntry
  constructor
  · intro h
    split at h
    · next i' v' h1 h2 =>
      simp only [Option.some.injEq, Prod.mk.injEq] at h
      exact ⟨by rw [h1, h.1], by rw [h2, h.2]⟩
    · exact absurd h (by simp)
  · rintro ⟨h1, h2⟩
    rw [h1, h2]

lemma answerKeyStep_of_entry (acc : List (Int × Int)) (q : Question) (i v : Int)
    (h : answerEntry q = some (i, v)) :
    answerKeyStep acc q = jsObjSet acc i v := by
  obtain ⟨h1, h2⟩ := (answerEntry_eq_some q i v).mp h
  unfold answerKeyStep
  rw [h1, h2]

lemma mem_jsObjSet (m : List (Int × Int)) (k v : Int) (p : Int × Int)
    (h : p ∈ jsObjSet m k v) : p ∈ m ∨ p = (k, v) := by
  unfold jsObjSet at h
  split at h
  · obtain ⟨q, hq, hpq⟩ := List.mem_map.mp h
    by_cases hk : q.1 == k
    · right
      rw [if_pos hk] at hpq
      exact hpq.symm
    · left
      rw [if_neg hk] at hpq
      exact hpq ▸ hq
  · rcases List.mem_append.mp h with h' | h'
    · exact Or.inl h'
    · right
      simpa using h'

lemma jsObjSet_of_fresh (m : List (Int × Int)) (k v : Int)
    (h : ∀ p ∈ m, p.1 ≠ k) : jsObjSet m k v = m ++ [(k, v)] := by
  unfold jsObjSet
  have hany : m.any (fun p => p.1 == k) = false := by
    simp only [List.any_eq_false, beq_iff_eq]
    exact h
  simp [hany]

/-- Every pair of the reduce's result comes from the accumulator or from a
selected entry whose two fields are well-typed numbers. -/
lemma answerKey_foldl_mem : ∀ (qs : List Question) (acc : List (Int × Int)) (p : Int × Int),
    p ∈ qs.foldl answerKeyStep acc →
    p ∈ acc ∨ ∃ q, q ∈ qs ∧ q.id = some (JsValue.num p.1)
      ∧ q.correctAnswerIndex = some (JsValue.num p.2) := by
  intro qs
  induction qs with
  | nil => intro acc p h; exact Or.inl h
  | cons q rest ih =>
    intro acc p h
    rcases ih (answerKeyStep acc q) p h with hacc | ⟨q', hq', hid, hcai⟩
    · unfold answerKeyStep at hacc
      split at hacc
      · next i v h1 h2 =>
        rcases mem_jsObjSet acc i v p hacc with h3 | h3
        · exact Or.inl h3
        · subst h3
          exact Or.inr ⟨q, List.mem_cons_self q rest, h1, h2⟩
      · exact Or.inl hacc
    · exact Or.inr ⟨q', List.mem_cons_of_mem q hq', hid, hcai⟩

/-- On a run of well-typed entries with pairwise-distinct ids whose keys are
fresh for the accumulator, the reduce appends one pair per entry in order. -/
lemma answerKey_foldl_eq : ∀ (qs : List Question) (acc : List (Int × Int)),
    (∀ q ∈ qs, wellTyped q = true) →
    qs.Pairwise (fun a b => a.id ≠ b.id) →
    (∀ q ∈ qs, ∀ p ∈ acc, ∀ i : Int, q.id = some (JsValue.num i) → p.1 ≠ i) →
    qs.foldl answerKeyStep acc = acc ++ qs.filterMap answerEntry := by
  intro qs
  induction qs with
  | nil => intro acc _ _ _; simp
  | cons q rest ih =>
    intro acc hwt hpw hfresh
    obtain ⟨⟨i, v⟩, hent⟩ :=
      Option.isSome_iff_exists.mp (hwt q (List.mem_cons_self q rest))
    obtain ⟨hid, hcai⟩ := (answerEntry_eq_some q i v).mp hent
    have hstep : answerKeyStep acc q = acc ++ [(i, v)] := by
      rw [answerKeyStep_of_entry acc q i v hent]
      exact jsObjSet_of_fresh acc i v
        (fun p hp => hfresh q (List.mem_cons_self q rest) p hp i hid)
    have hpw' := List.pairwise_cons.mp hpw
    have hrest : rest.foldl answerKeyStep (acc ++ [(i, v)])
        = (acc ++ [(i, v)]) ++ rest.filterMap answerEntry := by
      refine ih (acc ++ [(i, v)]) (fun q' h' => hwt q' (List.mem_cons_of_mem q h')) hpw'.2 ?_
      intro q' hq' p hp j hj
      rcases List.mem_append.mp hp with hp' | hp'
      · exact hfresh q' (List.mem_cons_of_mem q hq') p hp' j hj
      · have hpv : p = (i, v) := by simpa using hp'
        subst hpv
        intro hji
        have hij : i = j := hji
        apply hpw'.1 q' hq'
        rw [hid, hj, hij]
      -- here p.1 = i; were p.1 = j, then q.id = q'.id, contradicting pairwise
    calc (q :: rest).foldl answerKeyStep acc
        = rest.foldl answerKeyStep (answerKeyStep acc q) := rfl
      _ = rest.foldl answerKeyStep (acc ++ [(i, v)]) := by rw [hstep]
      _ = (acc ++ [(i, v)]) ++ rest.filterMap answerEntry := hrest
      _ = acc ++ (q :: rest).filterMap answerEntry := by
          rw [List.filterMap_cons_some hent]
          simp

lemma answerKey_eq_filterMap (qs : List Question)
    (hwt : ∀ q ∈ qs, wellTyped q = true)
    (hpw : qs.Pairwise (fun a b => a.id ≠ b.id)) :
    answerKey qs = qs.filterMap answerEntry := by
  have h := answerKey_foldl_eq qs [] hwt hpw (by simp)
  simpa [answerKey] using h

lemma filterMap_answerEntry_keys_pairwise (qs : List Question)
    (hwt : ∀ q ∈ qs, wellTyped q = true)
    (hpw : qs.Pairwise (fun a b => a.id ≠ b.id)) :
    (qs.filterMap answerEntry).Pairwise (fun a b => a.1 ≠ b.1) := by
  induction qs with
  | nil => simp
  | cons q rest ih =>
    obtain ⟨hq, hrest⟩ := List.pairwise_cons.mp hpw
    obtain ⟨⟨i, v⟩, hent⟩ :=
      Option.isSome_iff_exists.mp (hwt q (List.mem_cons_self q rest))
    obtain ⟨hid, _⟩ := (answerEntry_eq_some q i v).mp hent
    rw [List.filterMap_cons_some hent]
    refine List.pairwise_cons.mpr
      ⟨?_, ih (fun q' h' => hwt q' (List.mem_cons_of_mem q h')) hrest⟩
    rintro ⟨j, w⟩ hjw
    obtain ⟨q', hq', hent'⟩ := List.mem_filterMap.mp hjw
    obtain ⟨hid', _⟩ := (answerEntry_eq_some q' j w).mp hent'
    intro hij
    have hij' : i = j := hij
    apply hq q' hq'
    rw [hid, hid', hij']

lemma lookupKey_eq_some_iff : ∀ (m : List (Int × Int)),
    m.Pairwise (fun a b => a.1 ≠ b.1) →
    ∀ i v : Int, (lookupKey m i = some v ↔ (i, v) ∈ m) := by
  intro m
  induction m with
  | nil => intro _ i v; simp [lookupKey]
  | cons p rest ih =>
    intro hpw i v
    have hpw' := List.pairwise_cons.mp hpw
    by_cases hk : p.1 = i
    · have hfind : lookupKey (p :: rest) i = some p.2 := by
        simp [lookupKey, List.find?_cons_of_pos, hk]
      rw [hfind]
      constructor
      · intro h
        have hpv : p = (i, v) := by
          cases p
          simp only [Option.some.injEq] at h
          simp_all
        exact hpv ▸ List.mem_cons_self _ _
      · intro h
        rcases List.mem_cons.mp h with h' | h'
        · rw [← h']
        · exact absurd hk (by simpa using hpw'.1 (i, v) h')
    · have hfind : lookupKey (p :: rest) i = lookupKey rest i := by
        simp [lookupKey, List.find?_cons_of_neg, hk]
      rw [hfind, ih hpw'.2 i v]
      constructor
      · exact List.mem_cons_of_mem p
      · intro h
        rcases List.mem_cons.mp h with h' | h'
        · exact absurd (by rw [← h']) hk
        · exact h'

/-- C2: the answer key built from the day's selection is sourced solely from
selected entries whose `id` and `correctAnswerIndex` are both numbers
(malformed entries are skipped, nothing fails — the builder is total); and
for a well-formed pool it maps exactly the identifiers of the selection,
each to the correct-choice index of the pool entry carrying that
identifier. -/
theorem answerKey_select (P : List Question) (d : JsDate) (K : Nat) :
    (∀ p ∈ answerKey (getKRandomQuestions K P d),
        ∃ q, q ∈ getKRandomQuestions K P d ∧ q.id = some (JsValue.num p.1)
          ∧ q.correctAnswerIndex = some (JsValue.num p.2))
    ∧ (wellFormedPool P → ∀ i v : Int,
        (lookupKey (answerKey (getKRandomQuestions K P d)) i = some v ↔
          ∃ q, q ∈ getKRandomQuestions K P d ∧ q ∈ P
            ∧ q.id = some (JsValue.num i) ∧ q.correctAnswerIndex = some (JsValue.num v))) := by
  have hsub := getKRandomQuestions_subperm K P d
  constructor
  · intro p hp
    rcases answerKey_foldl_mem (getKRandomQuestions K P d) [] p
        (by simpa [answerKey] using hp) with h | h
    · exact absurd h (List.not_mem_nil p)
    · exact h
  · rintro ⟨hwtP, hpwP⟩ i v
    have hwt : ∀ q ∈ getKRandomQuestions K P d, wellTyped q = true :=
      fun q hq => hwtP q (hsub.subset hq)
    have hpw : (getKRandomQuestions K P d).Pairwise (fun a b => a.id ≠ b.id) := by
      have hperm : List.Perm (shuffleArray P (getDailySeed d)) P :=
        shuffleArray_perm P (getDailySeed d)
      have hshuffled : (shuffleArray P (getDailySeed d)).Pairwise (fun a b => a.id ≠ b.id) :=
        (List.Perm.pairwise_iff (fun h => h.symm) hperm).mpr hpwP
      have hts : getKRandomQuestions K P d
          = (shuffleArray P (getDailySeed d)).take (min K P.length) := rfl
      rw [hts]
      exact List.Pairwise.sublist (List.take_sublist _ _) hshuffled
    rw [answerKey_eq_filterMap _ hwt hpw,
      lookupKey_eq_some_iff _ (filterMap_answerEntry_keys_pairwise _ hwt hpw) i v,
      List.mem_filterMap]
    constructor
    · rintro ⟨q, hq, hent⟩
      obtain ⟨h1, h2⟩ := (answerEntry_eq_some q i v).mp hent
      exact ⟨q, hq, hsub.subset hq, h1, h2⟩
    · rintro ⟨q, hq, _, h1, h2⟩
      exact ⟨q, hq, (answerEntry_eq_some q i v).mpr ⟨h1, h2⟩⟩

set_option maxRecDepth 8000 in
/-- Witness for C2: in `poolA` (3 well-formed questions, `K = 5`, so all are
selected) identifier 1 is mapped, and it is mapped to 0, the correct-choice
index of the pool entry with id 1. -/
theorem answerKey_select_witness :
    ∃ q, q ∈ getKRandomQuestions 5 poolA sampleDate ∧ q ∈ poolA
      ∧ q.id = some (JsValue.num 1) ∧ q.correctAnswerIndex = some (JsValue.num 0) :=
  ((answerKey_select poolA sampleDate 5).2 (by decide) 1 0).mp (by decide)

end DailyQuiz
